import Mathlib

/-!
Shallow embedding of the Flask backend `app.py` of the 461L hardware-sharing
service.  MongoDB collections are modelled as Lean lists of records; every
route body becomes a pure function from a database state (and the request
data) to an HTTP-style response, paired with the successor state when the
route mutates the store.  `find_one` becomes `List.find?`, `update_one`
becomes a first-match rewrite of the list, and `insert_one` under a unique
index becomes a guarded append.  Request fields taken from JSON bodies or
query strings are `Option`-valued; Python truthiness on strings (`if not x`)
is modelled by `falsy`.
-/

/-- A document of the `Users` collection: `{userId, password}`. -/
structure UserDoc where
  userId : String
  password : String
  deriving DecidableEq, Repr

/-- A document of the `Projects` collection. -/
structure Project where
  projectId : String
  name : String
  description : String
  createdAt : Option String
  createdBy : String
  members : List String
  isPublic : Bool
  deriving DecidableEq, Repr

/-- A document of the `Resources` collection. -/
structure ResourceSet where
  projectId : String
  hwsetId : String
  name : String
  total : Int
  allocatedToProject : Int
  available : Int
  notes : String
  deriving DecidableEq, Repr

/-- The persistent store: the three collections used by `app.py`. -/
structure DB where
  users : List UserDoc
  projects : List Project
  resources : List ResourceSet
  deriving DecidableEq, Repr

/-- Python truthiness test `not x` for an optional string field
(absent ⇒ `None` ⇒ falsy; present empty string ⇒ falsy). -/
def falsy (s : Option String) : Bool :=
  s.getD "" == ""

/-- JSON-style response bodies produced by the routes (projections only;
the `_id` field is always excluded, as in the source's projections). -/
inductive Body where
  | err (msg : String)
  | okLogin (userId : String)
  | okProject (p : Project)
  | okMembers (members : List String) (createdBy : String) (isPublic : Bool)
  | okResources (rs : List ResourceSet)
  | okStock (msg : String) (available allocated : Int)
  | okMsg (msg : String)
  | okVis (isPublic : Bool)
  | okCreate (projectId : String) (resources : List ResourceSet)
  deriving DecidableEq, Repr

/-- An HTTP status code paired with the JSON body. -/
abbrev Resp := Nat × Body

/-- `users_col.find_one({"userId": uid})`. -/
def findUser (us : List UserDoc) (uid : String) : Option UserDoc :=
  us.find? (fun u => u.userId == uid)

/-- `projects_col.find_one({"projectId": pid})`. -/
def findProject (ps : List Project) (pid : String) : Option Project :=
  ps.find? (fun p => p.projectId == pid)

/-- `resources_col.find_one({"projectId": pid, "hwsetId": hid})`. -/
def findResource (rs : List ResourceSet) (pid hid : String) : Option ResourceSet :=
  rs.find? (fun r => r.projectId == pid && r.hwsetId == hid)

/-- Helper `check_project_access(project_id, user_id)` from `app.py`:
false when `user_id` is falsy or the project is absent, otherwise membership
or the public flag. -/
def check_project_access (db : DB) (project_id : String) (user_id : Option String) : Bool :=
  if falsy user_id then false
  else
    match findProject db.projects project_id with
    | none => false
    | some project => project.members.contains (user_id.getD "") || project.isPublic

/-- Route `POST /api/login`: missing fields give 400; an unknown user and a
wrong password both give the same 401 body. -/
def login (db : DB) (userId password : Option String) : Resp :=
  if falsy userId || falsy password then
    (400, .err "userId and password are required")
  else
    match findUser db.users (userId.getD "") with
    | none => (401, .err "Invalid userId/password")
    | some user =>
        if user.password ≠ password.getD "" then (401, .err "Invalid userId/password")
        else (200, .okLogin (userId.getD ""))

/-- Route `GET /api/projects/{project_id}`: the access check runs first, then
the detail document is fetched. -/
def get_project (db : DB) (project_id : String) (user_id : Option String) : Resp :=
  if ¬ check_project_access db project_id user_id then (403, .err "Access denied")
  else
    match findProject db.projects project_id with
    | none => (404, .err "Project not found")
    | some doc => (200, .okProject doc)

/-- Route `GET /api/projects/{project_id}/members`. -/
def get_project_members (db : DB) (project_id : String) (user_id : Option String) : Resp :=
  if ¬ check_project_access db project_id user_id then (403, .err "Access denied")
  else
    match findProject db.projects project_id with
    | none => (404, .err "Project not found")
    | some project =>
        (200, .okMembers project.members project.createdBy project.isPublic)

/-- Route `GET /api/projects/{project_id}/resources`. -/
def get_project_resources (db : DB) (project_id : String) (user_id : Option String) : Resp :=
  if ¬ check_project_access db project_id user_id then (403, .err "Access denied")
  else (200, .okResources (db.resources.filter (fun r => r.projectId == project_id)))

/-- `projects_col.update_one({"projectId": pid}, ...)`: rewrite the first
matching document with `f`, leave the rest untouched. -/
def updateProject (ps : List Project) (pid : String) (f : Project → Project) : List Project :=
  match ps with
  | [] => []
  | p :: rest =>
      if p.projectId == pid then f p :: rest
      else p :: updateProject rest pid f

/-- `resources_col.update_one({"projectId": pid, "hwsetId": hid}, ...)`:
rewrite the first matching document with `f`. -/
def updateResource (rs : List ResourceSet) (pid hid : String) (f : ResourceSet → ResourceSet) :
    List ResourceSet :=
  match rs with
  | [] => []
  | r :: rest =>
      if r.projectId == pid && r.hwsetId == hid then f r :: rest
      else r :: updateResource rest pid hid f

/-- `$addToSet {"members": uid}` applied to a project document. -/
def addToSetMember (uid : String) (p : Project) : Project :=
  if p.members.contains uid then p else { p with members := p.members ++ [uid] }

/-- `$pull {"members": uid}` applied to a project document (removes every
occurrence). -/
def pullMember (uid : String) (p : Project) : Project :=
  { p with members := p.members.filter (fun m => m ≠ uid) }

/-- Route `PATCH /api/projects/{project_id}/visibility`: only the creator may
change visibility; an absent `isPublic` field is coerced to `false` by
`bool(payload.get("isPublic", False))`. -/
def set_project_visibility (db : DB) (project_id : String)
    (userId : Option String) (isPublic : Option Bool) : Resp × DB :=
  if falsy userId then ((400, .err "userId is required"), db)
  else
    match findProject db.projects project_id with
    | none => ((404, .err "Project not found"), db)
    | some project =>
        if project.createdBy ≠ userId.getD "" then
          ((403, .err "Only the project owner may change visibility"), db)
        else
          let is_public := isPublic.getD false
          let ps' := updateProject db.projects project_id (fun p => { p with isPublic := is_public })
          ((200, .okVis is_public), { db with projects := ps' })

/-- The JSON payload of `POST /api/projects`. -/
structure CreatePayload where
  projectId : Option String
  name : Option String
  description : Option String
  createdAt : Option String
  createdBy : Option String
  isPublic : Option Bool
  default_hwset1_total : Option Int
  default_hwset2_total : Option Int
  deriving DecidableEq, Repr

/-- One duplicate-tolerant `insert_one` of a default resource in
`create_project`: on `DuplicateKeyError` the existing record is fetched and
reported instead of failing the batch. -/
def insertResourceTolerant (st : DB × List ResourceSet) (res : ResourceSet) :
    DB × List ResourceSet :=
  match findResource st.1.resources res.projectId res.hwsetId with
  | some existing => (st.1, st.2 ++ [existing])
  | none => ({ st.1 with resources := st.1.resources ++ [res] }, st.2 ++ [res])

/-- Route `POST /api/projects`: validates required fields, checks the owner
exists, inserts the project (409 on duplicate `projectId`), then creates the
two default hardware sets one by one, tolerating duplicates. -/
def create_project (db : DB) (payload : CreatePayload) : Resp × DB :=
  if falsy payload.projectId || falsy payload.name || falsy payload.createdBy then
    ((400, .err "projectId, name, and createdBy are required"), db)
  else
    let created_by := payload.createdBy.getD ""
    match findUser db.users created_by with
    | none => ((400, .err "Invalid user"), db)
    | some _ =>
        let pid := payload.projectId.getD ""
        let doc : Project :=
          { projectId := pid
            name := payload.name.getD ""
            description := payload.description.getD ""
            createdAt := payload.createdAt
            createdBy := created_by
            members := [created_by]
            isPublic := payload.isPublic.getD false }
        match findProject db.projects pid with
        | some _ => ((409, .err "projectId already exists"), db)
        | none =>
            let db1 : DB := { db with projects := db.projects ++ [doc] }
            let hw1total := payload.default_hwset1_total.getD 15
            let hw2total := payload.default_hwset2_total.getD 10
            let res1 : ResourceSet :=
              { projectId := pid, hwsetId := "HWSet1", name := "Arduino Uno Kit"
                total := hw1total, allocatedToProject := 0, available := hw1total
                notes := "Default Arduino kits for " ++ pid }
            let res2 : ResourceSet :=
              { projectId := pid, hwsetId := "HWSet2", name := "Raspberry Pi Kit"
                total := hw2total, allocatedToProject := 0, available := hw2total
                notes := "Default Raspberry Pi kits for " ++ pid }
            let st := insertResourceTolerant (insertResourceTolerant (db1, []) res1) res2
            ((201, .okCreate pid st.2), st.1)

/-- Route `POST /api/projects/{project_id}/join`: requires a registered user;
a private project can only be joined by an existing member (no-op success);
a public one adds the user via `$addToSet`. -/
def join_project (db : DB) (project_id : String) (userId : Option String) : Resp × DB :=
  if falsy userId then ((400, .err "userId is required"), db)
  else
    let uid := userId.getD ""
    match findUser db.users uid with
    | none => ((400, .err "Invalid user"), db)
    | some _ =>
        match findProject db.projects project_id with
        | none => ((404, .err "Project not found"), db)
        | some project =>
            if ¬ project.isPublic ∧ ¬ project.members.contains uid then
              ((403, .err "Access denied - project is private"), db)
            else if ¬ project.members.contains uid then
              ((200, .okMsg "Successfully joined project"),
                { db with projects := updateProject db.projects project_id (addToSetMember uid) })
            else
              ((200, .okMsg "Already a member of this project"), db)

/-- Route `DELETE /api/projects/{project_id}/members/{member_id}`: only the
creator may remove members and the creator can never be the target; `$pull`
is a success whether or not the member was present. -/
def remove_project_member (db : DB) (project_id member_id : String)
    (requestingUser : Option String) : Resp × DB :=
  if falsy requestingUser then ((400, .err "requestingUser is required"), db)
  else
    match findProject db.projects project_id with
    | none => ((404, .err "Project not found"), db)
    | some project =>
        if project.createdBy ≠ requestingUser.getD "" then
          ((403, .err "Only the project owner may remove members"), db)
        else if member_id == project.createdBy then
          ((400, .err "Cannot remove the project owner"), db)
        else
          let db' : DB :=
            { db with projects := updateProject db.projects project_id (pullMember member_id) }
          if project.members.contains member_id then
            ((200, .okMsg "removed"), db')
          else
            ((200, .okMsg "User was not a member"), db')

/-- Route `POST /api/projects/{project_id}/invite`: the inviter needs access,
the invitee must be a registered user; membership is added via `$addToSet`. -/
def invite_to_project (db : DB) (project_id : String)
    (requestingUser inviteUser : Option String) : Resp × DB :=
  if falsy requestingUser || falsy inviteUser then
    ((400, .err "requestingUser and inviteUser are required"), db)
  else if ¬ check_project_access db project_id requestingUser then
    ((403, .err "Access denied"), db)
  else
    let invitee := inviteUser.getD ""
    match findUser db.users invitee with
    | none => ((404, .err "Invited user does not exist"), db)
    | some _ =>
        let db' : DB :=
          { db with projects := updateProject db.projects project_id (addToSetMember invitee) }
        match findProject db.projects project_id with
        | some project =>
            if ¬ project.members.contains invitee then
              ((200, .okMsg "Successfully invited"), db')
            else
              ((200, .okMsg "is already a member"), db')
        | none => ((200, .okMsg "is already a member"), db')

/-- Route `POST /api/projects/{project_id}/resources/{hwset_id}/checkout`:
access-checked; `quantity` defaults to 1 and must be positive; fails when
`quantity > available`, otherwise reads the record and writes back the
decremented availability. -/
def checkout_hardware (db : DB) (project_id hwset_id : String)
    (userId : Option String) (quantity : Option Int) : Resp × DB :=
  let q := quantity.getD 1
  if falsy userId then ((400, .err "userId is required"), db)
  else if ¬ check_project_access db project_id userId then
    ((403, .err "Access denied to project"), db)
  else if q ≤ 0 then ((400, .err "quantity must be a positive integer"), db)
  else
    match findResource db.resources project_id hwset_id with
    | none => ((404, .err "Hardware set not found"), db)
    | some resource =>
        let current_available := resource.available
        if current_available < q then
          ((400, .err ("Only " ++ toString current_available ++ " units available")), db)
        else
          let new_available := current_available - q
          let new_allocated := resource.allocatedToProject + q
          let rs' := updateResource db.resources project_id hwset_id
            (fun r => { r with available := new_available, allocatedToProject := new_allocated })
          ((200, .okStock ("Checked out " ++ toString q ++ " units of " ++ hwset_id)
              new_available new_allocated),
            { db with resources := rs' })

/-- Route `POST /api/projects/{project_id}/resources/{hwset_id}/checkin`:
symmetric to checkout; fails when `quantity > allocatedToProject`. -/
def checkin_hardware (db : DB) (project_id hwset_id : String)
    (userId : Option String) (quantity : Option Int) : Resp × DB :=
  let q := quantity.getD 1
  if falsy userId then ((400, .err "userId is required"), db)
  else if ¬ check_project_access db project_id userId then
    ((403, .err "Access denied to project"), db)
  else if q ≤ 0 then ((400, .err "quantity must be a positive integer"), db)
  else
    match findResource db.resources project_id hwset_id with
    | none => ((404, .err "Hardware set not found"), db)
    | some resource =>
        let current_allocated := resource.allocatedToProject
        if current_allocated < q then
          ((400, .err ("Only " ++ toString current_allocated ++ " units are checked out")), db)
        else
          let new_allocated := current_allocated - q
          let new_available := resource.available + q
          let rs' := updateResource db.resources project_id hwset_id
            (fun r => { r with available := new_available, allocatedToProject := new_allocated })
          ((200, .okStock ("Checked in " ++ toString q ++ " units of " ++ hwset_id)
              new_available new_allocated),
            { db with resources := rs' })

/-- The ResourceSet bookkeeping equation `available + allocatedToProject == total`. -/
def resInvB (r : ResourceSet) : Bool :=
  r.available + r.allocatedToProject == r.total

/-- The bookkeeping equation over a whole `Resources` collection. -/
def resInvAll (rs : List ResourceSet) : Bool :=
  rs.all resInvB

/-- Owner membership: the creating user is in the project's member list. -/
def ownerInvB (p : Project) : Bool :=
  p.members.contains p.createdBy

/-- Owner membership over a whole `Projects` collection. -/
def ownerInvAll (ps : List Project) : Bool :=
  ps.all ownerInvB

/-- A checkout or checkin request, for reasoning about call sequences. -/
inductive ResOp where
  | checkoutOp (project_id hwset_id : String) (userId : Option String) (quantity : Option Int)
  | checkinOp (project_id hwset_id : String) (userId : Option String) (quantity : Option Int)
  deriving DecidableEq, Repr

/-- The store state after one checkout/checkin request. -/
def applyResOp (db : DB) : ResOp → DB
  | .checkoutOp pid hid u q => (checkout_hardware db pid hid u q).2
  | .checkinOp pid hid u q => (checkin_hardware db pid hid u q).2

/-- The store state after a sequence of checkout/checkin requests. -/
def runResOps (db : DB) (ops : List ResOp) : DB :=
  ops.foldl applyResOp db

/-- A membership-affecting project request, for reasoning about call
sequences. -/
inductive ProjOp where
  | createOp (payload : CreatePayload)
  | joinOp (project_id : String) (userId : Option String)
  | inviteOp (project_id : String) (requestingUser inviteUser : Option String)
  | removeOp (project_id member_id : String) (requestingUser : Option String)
  deriving DecidableEq, Repr

/-- The store state after one project request. -/
def applyProjOp (db : DB) : ProjOp → DB
  | .createOp payload => (create_project db payload).2
  | .joinOp pid u => (join_project db pid u).2
  | .inviteOp pid ru iu => (invite_to_project db pid ru iu).2
  | .removeOp pid mid ru => (remove_project_member db pid mid ru).2

/-- The store state after a sequence of project requests. -/
def runProjOps (db : DB) (ops : List ProjOp) : DB :=
  ops.foldl applyProjOp db

lemma all_updateResource (P : ResourceSet → Bool) (rs : List ResourceSet) (pid hid : String)
    (f : ResourceSet → ResourceSet) (r0 : ResourceSet)
    (hfind : findResource rs pid hid = some r0)
    (hall : rs.all P = true) (hf : P (f r0) = true) :
    (updateResource rs pid hid f).all P = true := by
  induction rs with
  | nil => simp [findResource] at hfind
  | cons r rest ih =>
      rw [List.all_cons, Bool.and_eq_true] at hall
      cases h : (r.projectId == pid && r.hwsetId == hid) with
      | true =>
          simp only [findResource, List.find?_cons, h, Option.some.injEq] at hfind
          subst hfind
          simp [updateResource, h, List.all_cons, hf, hall.2]
      | false =>
          simp only [findResource, List.find?_cons, h] at hfind
          simp only [updateResource, h, Bool.false_eq_true, if_false, List.all_cons,
            Bool.and_eq_true]
          exact ⟨hall.1, ih hfind hall.2⟩

lemma findResource_updateResource (rs : List ResourceSet) (pid hid : String)
    (f : ResourceSet → ResourceSet) (r0 : ResourceSet)
    (hfind : findResource rs pid hid = some r0)
    (hkey : ((f r0).projectId == pid && (f r0).hwsetId == hid) = true) :
    findResource (updateResource rs pid hid f) pid hid = some (f r0) := by
  induction rs with
  | nil => simp [findResource] at hfind
  | cons r rest ih =>
      cases h : (r.projectId == pid && r.hwsetId == hid) with
      | true =>
          simp only [findResource, List.find?_cons, h, Option.some.injEq] at hfind
          subst hfind
          simp [updateResource, findResource, List.find?_cons, h, hkey]
      | false =>
          simp only [findResource, List.find?_cons, h] at hfind
          simp only [updateResource, h, Bool.false_eq_true, if_false]
          simp only [findResource, List.find?_cons, h]
          exact ih hfind

lemma all_updateProject (P : Project → Bool) (ps : List Project) (pid : String)
    (f : Project → Project) (p0 : Project)
    (hfind : findProject ps pid = some p0)
    (hall : ps.all P = true) (hf : P (f p0) = true) :
    (updateProject ps pid f).all P = true := by
  induction ps with
  | nil => simp [findProject] at hfind
  | cons p rest ih =>
      rw [List.all_cons, Bool.and_eq_true] at hall
      cases h : (p.projectId == pid) with
      | true =>
          simp only [findProject, List.find?_cons, h, Option.some.injEq] at hfind
          subst hfind
          simp [updateProject, h, List.all_cons, hf, hall.2]
      | false =>
          simp only [findProject, List.find?_cons, h] at hfind
          simp only [updateProject, h, Bool.false_eq_true, if_false, List.all_cons,
            Bool.and_eq_true]
          exact ⟨hall.1, ih hfind hall.2⟩

lemma findProject_updateProject (ps : List Project) (pid : String)
    (f : Project → Project) (p0 : Project)
    (hfind : findProject ps pid = some p0)
    (hkey : ((f p0).projectId == pid) = true) :
    findProject (updateProject ps pid f) pid = some (f p0) := by
  induction ps with
  | nil => simp [findProject] at hfind
  | cons p rest ih =>
      cases h : (p.projectId == pid) with
      | true =>
          simp only [findProject, List.find?_cons, h, Option.some.injEq] at hfind
          subst hfind
          simp [updateProject, findProject, List.find?_cons, h, hkey]
      | false =>
          simp only [findProject, List.find?_cons, h] at hfind
          simp only [updateProject, h, Bool.false_eq_true, if_false]
          simp only [findProject, List.find?_cons, h]
          exact ih hfind

lemma checkout_preserves_resInv (db : DB) (pid hid : String) (u : Option String)
    (q : Option Int) (hall : resInvAll db.resources = true) :
    resInvAll (checkout_hardware db pid hid u q).2.resources = true := by
  simp only [checkout_hardware]
  by_cases hf : falsy u = true
  · simp only [if_pos hf]; exact hall
  · simp only [if_neg hf]
    by_cases hacc : check_project_access db pid u = true
    · simp only [if_neg (not_not_intro hacc)]
      by_cases hq : q.getD 1 ≤ 0
      · simp only [if_pos hq]; exact hall
      · simp only [if_neg hq]
        cases heq : findResource db.resources pid hid with
        | none => simp only [heq]; exact hall
        | some resource =>
            simp only [heq]
            by_cases hav : resource.available < q.getD 1
            · simp only [if_pos hav]; exact hall
            · simp only [if_neg hav]
              refine all_updateResource resInvB db.resources pid hid _ resource heq hall ?_
              have hmem : resource ∈ db.resources := List.mem_of_find?_eq_some heq
              have hres : resInvB resource = true := by
                rw [resInvAll, List.all_eq_true] at hall
                exact hall resource hmem
              simp only [resInvB, beq_iff_eq] at hres ⊢
              omega
    · simp only [if_pos hacc]; exact hall

lemma checkin_preserves_resInv (db : DB) (pid hid : String) (u : Option String)
    (q : Option Int) (hall : resInvAll db.resources = true) :
    resInvAll (checkin_hardware db pid hid u q).2.resources = true := by
  simp only [checkin_hardware]
  by_cases hf : falsy u = true
  · simp only [if_pos hf]; exact hall
  · simp only [if_neg hf]
    by_cases hacc : check_project_access db pid u = true
    · simp only [if_neg (not_not_intro hacc)]
      by_cases hq : q.getD 1 ≤ 0
      · simp only [if_pos hq]; exact hall
      · simp only [if_neg hq]
        cases heq : findResource db.resources pid hid with
        | none => simp only [heq]; exact hall
        | some resource =>
            simp only [heq]
            by_cases hal : resource.allocatedToProject < q.getD 1
            · simp only [if_pos hal]; exact hall
            · simp only [if_neg hal]
              refine all_updateResource resInvB db.resources pid hid _ resource heq hall ?_
              have hmem : resource ∈ db.resources := List.mem_of_find?_eq_some heq
              have hres : resInvB resource = true := by
                rw [resInvAll, List.all_eq_true] at hall
                exact hall resource hmem
              simp only [resInvB, beq_iff_eq] at hres ⊢
              omega
    · simp only [if_pos hacc]; exact hall

lemma applyResOp_preserves_resInv (db : DB) (op : ResOp)
    (hall : resInvAll db.resources = true) :
    resInvAll (applyResOp db op).resources = true := by
  cases op with
  | checkoutOp pid hid u q => exact checkout_preserves_resInv db pid hid u q hall
  | checkinOp pid hid u q => exact checkin_preserves_resInv db pid hid u q hall

lemma runResOps_preserves_resInv (db : DB) (ops : List ResOp)
    (hall : resInvAll db.resources = true) :
    resInvAll (runResOps db ops).resources = true := by
  induction ops generalizing db with
  | nil => exact hall
  | cons op rest ih =>
      rw [runResOps, List.foldl_cons]
      exact ih (applyResOp db op) (applyResOp_preserves_resInv db op hall)

lemma access_implies_found (db : DB) (pid : String) (u : Option String)
    (h : check_project_access db pid u = true) :
    falsy u = false ∧ ∃ p0, findProject db.projects pid = some p0 := by
  unfold check_project_access at h
  by_cases hf : falsy u = true
  · simp [hf] at h
  · refine ⟨by simpa using hf, ?_⟩
    rw [if_neg (by simpa using hf)] at h
    cases hp : findProject db.projects pid with
    | none => rw [hp] at h; exact absurd h (by simp)
    | some p0 => exact ⟨p0, rfl⟩

lemma falsy_false_of_access (db : DB) (pid : String) (u : Option String)
    (hacc : check_project_access db pid u = true) : falsy u = false := by
  cases hfu : falsy u with
  | false => rfl
  | true => simp [check_project_access, hfu] at hacc

/-- The `$set` document written back by a successful checkout or checkin. -/
def setStock (av al : Int) (r : ResourceSet) : ResourceSet :=
  { r with available := av, allocatedToProject := al }

/-- C1: starting from any store in which every ResourceSet satisfies
`available + allocatedToProject == total` (as at creation, where
`allocatedToProject = 0` and `available = total`), every checkout call and
every checkin call — succeeding or failing — leaves every record satisfying
the equation again, and hence it holds after any sequence of
checkout/checkin calls. -/
theorem stock_sum_invariant (db : DB) (hinv : resInvAll db.resources = true) :
    (∀ pid hid u q, resInvAll (checkout_hardware db pid hid u q).2.resources = true)
    ∧ (∀ pid hid u q, resInvAll (checkin_hardware db pid hid u q).2.resources = true)
    ∧ ∀ ops : List ResOp, resInvAll (runResOps db ops).resources = true :=
  ⟨fun pid hid u q => checkout_preserves_resInv db pid hid u q hinv,
   fun pid hid u q => checkin_preserves_resInv db pid hid u q hinv,
   fun ops => runResOps_preserves_resInv db ops hinv⟩

/-- Witness for C1: a concrete store and a concrete sequence of one
successful checkout, one successful checkin and one rejected checkout. -/
theorem stock_sum_invariant_witness :
    resInvAll (DB.mk [⟨"u", "pw"⟩] [⟨"p1", "P", "", none, "u", ["u"], true⟩]
        [⟨"p1", "HWSet1", "Arduino Uno Kit", 15, 0, 15, ""⟩]).resources = true
    ∧ resInvAll (runResOps
        (DB.mk [⟨"u", "pw"⟩] [⟨"p1", "P", "", none, "u", ["u"], true⟩]
          [⟨"p1", "HWSet1", "Arduino Uno Kit", 15, 0, 15, ""⟩])
        [ResOp.checkoutOp "p1" "HWSet1" (some "u") (some 10),
         ResOp.checkinOp "p1" "HWSet1" (some "u") (some 3),
         ResOp.checkoutOp "p1" "HWSet1" (some "u") (some 99)]).resources = true :=
  ⟨by decide,
   (stock_sum_invariant _ (by decide)).2.2
     [ResOp.checkoutOp "p1" "HWSet1" (some "u") (some 10),
      ResOp.checkinOp "p1" "HWSet1" (some "u") (some 3),
      ResOp.checkoutOp "p1" "HWSet1" (some "u") (some 99)]⟩

/-- C2: under the claim's preconditions (requester with access, existing
ResourceSet, positive integer quantity) a checkout fails with the
insufficient-stock 400 exactly when `quantity > available`, and on success
the stored record has `available` decreased and `allocatedToProject`
increased by `quantity`, those values being returned in the response. -/
theorem checkout_boundary (db : DB) (pid hid u : String) (q : Int) (r0 : ResourceSet)
    (hacc : check_project_access db pid (some u) = true)
    (hfind : findResource db.resources pid hid = some r0)
    (hq : 0 < q) :
    (r0.available < q →
      checkout_hardware db pid hid (some u) (some q) =
        ((400, Body.err ("Only " ++ toString r0.available ++ " units available")), db))
    ∧ (q ≤ r0.available →
      checkout_hardware db pid hid (some u) (some q) =
        ((200, Body.okStock ("Checked out " ++ toString q ++ " units of " ++ hid)
            (r0.available - q) (r0.allocatedToProject + q)),
          { db with resources := updateResource db.resources pid hid (setStock (r0.available - q) (r0.allocatedToProject + q)) })
      ∧ findResource (checkout_hardware db pid hid (some u) (some q)).2.resources pid hid =
          some (setStock (r0.available - q) (r0.allocatedToProject + q) r0)) := by
  have hfalsy : falsy (some u) = false := falsy_false_of_access db pid (some u) hacc
  constructor
  · intro hav
    simp only [checkout_hardware, hfalsy, Bool.false_eq_true, if_false, hacc, not_true,
      Option.getD_some, if_neg (not_le.mpr hq), hfind, if_pos hav, if_neg (not_not_intro rfl)]
  · intro hav
    have hmain : checkout_hardware db pid hid (some u) (some q) =
        ((200, Body.okStock ("Checked out " ++ toString q ++ " units of " ++ hid)
            (r0.available - q) (r0.allocatedToProject + q)),
          { db with resources := updateResource db.resources pid hid (setStock (r0.available - q) (r0.allocatedToProject + q)) }) := by
      simp only [checkout_hardware, hfalsy, Bool.false_eq_true, if_false, hacc, not_true,
        Option.getD_some, if_neg (not_le.mpr hq), hfind, if_neg (not_lt.mpr hav),
        if_neg (not_not_intro rfl)]
      rfl
    refine ⟨hmain, ?_⟩
    rw [hmain]
    have hfind' : List.find? (fun r => r.projectId == pid && r.hwsetId == hid) db.resources
        = some r0 := hfind
    have hpred : (r0.projectId == pid && r0.hwsetId == hid) = true := by
      simpa using List.find?_some hfind'
    exact findResource_updateResource db.resources pid hid
      (setStock (r0.available - q) (r0.allocatedToProject + q)) r0 hfind
      (by simpa [setStock] using hpred)

/-- A sample store for the concrete witnesses: one private project owned by
`owner` with member `u`, and one hardware set with 15 of 15
units available. -/
def sampleDB : DB :=
  ⟨[⟨"u", "pw"⟩, ⟨"owner", "pw"⟩],
   [⟨"p1", "P", "", none, "owner", ["owner", "u"], false⟩],
   [⟨"p1", "HWSet1", "Arduino Uno Kit", 15, 0, 15, ""⟩]⟩

/-- The hardware-set record stored in `sampleDB`. -/
def sampleRes : ResourceSet := ⟨"p1", "HWSet1", "Arduino Uno Kit", 15, 0, 15, ""⟩

/-- Witness for C2 at the boundary: with 15 units available, checking out 16
fails with the insufficiency error and checking out exactly 15 succeeds,
updating the stored record. -/
theorem checkout_boundary_witness :
    check_project_access sampleDB "p1" (some "u") = true
    ∧ findResource sampleDB.resources "p1" "HWSet1" = some sampleRes
    ∧ (0 : Int) < 16 ∧ (0 : Int) < 15 ∧ sampleRes.available < 16 ∧ (15 : Int) ≤ sampleRes.available
    ∧ checkout_hardware sampleDB "p1" "HWSet1" (some "u") (some 16) =
        ((400, Body.err ("Only " ++ toString sampleRes.available ++ " units available")), sampleDB)
    ∧ checkout_hardware sampleDB "p1" "HWSet1" (some "u") (some 15) =
        ((200, Body.okStock ("Checked out " ++ toString (15 : Int) ++ " units of " ++ "HWSet1")
            (sampleRes.available - 15) (sampleRes.allocatedToProject + 15)),
          { sampleDB with resources := updateResource sampleDB.resources "p1" "HWSet1" (setStock (sampleRes.available - 15) (sampleRes.allocatedToProject + 15)) })
    ∧ findResource (checkout_hardware sampleDB "p1" "HWSet1" (some "u") (some 15)).2.resources "p1" "HWSet1" =
        some (setStock (sampleRes.available - 15) (sampleRes.allocatedToProject + 15) sampleRes) :=
  ⟨by decide, by decide, by decide, by decide, by decide, by decide,
   (checkout_boundary sampleDB "p1" "HWSet1" "u" 16 sampleRes
      (by decide) (by decide) (by decide)).1 (by decide),
   ((checkout_boundary sampleDB "p1" "HWSet1" "u" 15 sampleRes
      (by decide) (by decide) (by decide)).2 (by decide)).1,
   ((checkout_boundary sampleDB "p1" "HWSet1" "u" 15 sampleRes
      (by decide) (by decide) (by decide)).2 (by decide)).2⟩

/-- C3: under the claim's preconditions (requester with access, existing
ResourceSet, positive integer quantity) a checkin fails with the over-return
400 exactly when `quantity > allocatedToProject`, leaving the store
unchanged, and on success the stored record has `available` increased and
`allocatedToProject` decreased by `quantity`, those values being returned. -/
theorem checkin_boundary (db : DB) (pid hid u : String) (q : Int) (r0 : ResourceSet)
    (hacc : check_project_access db pid (some u) = true)
    (hfind : findResource db.resources pid hid = some r0)
    (hq : 0 < q) :
    (r0.allocatedToProject < q →
      checkin_hardware db pid hid (some u) (some q) =
        ((400, Body.err ("Only " ++ toString r0.allocatedToProject ++ " units are checked out")), db))
    ∧ (q ≤ r0.allocatedToProject →
      checkin_hardware db pid hid (some u) (some q) =
        ((200, Body.okStock ("Checked in " ++ toString q ++ " units of " ++ hid)
            (r0.available + q) (r0.allocatedToProject - q)),
          { db with resources := updateResource db.resources pid hid (setStock (r0.available + q) (r0.allocatedToProject - q)) })
      ∧ findResource (checkin_hardware db pid hid (some u) (some q)).2.resources pid hid =
          some (setStock (r0.available + q) (r0.allocatedToProject - q) r0)) := by
  have hfalsy : falsy (some u) = false := falsy_false_of_access db pid (some u) hacc
  constructor
  · intro hal
    simp only [checkin_hardware, hfalsy, Bool.false_eq_true, if_false, hacc, not_true,
      Option.getD_some, if_neg (not_le.mpr hq), hfind, if_pos hal, if_neg (not_not_intro rfl)]
  · intro hal
    have hmain : checkin_hardware db pid hid (some u) (some q) =
        ((200, Body.okStock ("Checked in " ++ toString q ++ " units of " ++ hid)
            (r0.available + q) (r0.allocatedToProject - q)),
          { db with resources := updateResource db.resources pid hid (setStock (r0.available + q) (r0.allocatedToProject - q)) }) := by
      simp only [checkin_hardware, hfalsy, Bool.false_eq_true, if_false, hacc, not_true,
        Option.getD_some, if_neg (not_le.mpr hq), hfind, if_neg (not_lt.mpr hal),
        if_neg (not_not_intro rfl)]
      rfl
    refine ⟨hmain, ?_⟩
    rw [hmain]
    have hfind' : List.find? (fun r => r.projectId == pid && r.hwsetId == hid) db.resources
        = some r0 := hfind
    have hpred : (r0.projectId == pid && r0.hwsetId == hid) = true := by
      simpa using List.find?_some hfind'
    exact findResource_updateResource db.resources pid hid
      (setStock (r0.available + q) (r0.allocatedToProject - q)) r0 hfind
      (by simpa [setStock] using hpred)

/-- A sample store with 7 of 15 units checked out, for the checkin witness. -/
def sampleDB2 : DB :=
  ⟨[⟨"u", "pw"⟩, ⟨"owner", "pw"⟩],
   [⟨"p1", "P", "", none, "owner", ["owner", "u"], false⟩],
   [⟨"p1", "HWSet1", "Arduino Uno Kit", 15, 7, 8, ""⟩]⟩

/-- The hardware-set record stored in `sampleDB2`. -/
def sampleRes2 : ResourceSet := ⟨"p1", "HWSet1", "Arduino Uno Kit", 15, 7, 8, ""⟩

/-- Witness for C3 at the boundary: with 7 units checked out, checking in 8
is rejected leaving the store unchanged, and checking in 3 succeeds,
updating the stored record. -/
theorem checkin_boundary_witness :
    check_project_access sampleDB2 "p1" (some "u") = true
    ∧ findResource sampleDB2.resources "p1" "HWSet1" = some sampleRes2
    ∧ (0 : Int) < 8 ∧ (0 : Int) < 3
    ∧ sampleRes2.allocatedToProject < 8 ∧ (3 : Int) ≤ sampleRes2.allocatedToProject
    ∧ checkin_hardware sampleDB2 "p1" "HWSet1" (some "u") (some 8) =
        ((400, Body.err ("Only " ++ toString sampleRes2.allocatedToProject ++ " units are checked out")), sampleDB2)
    ∧ checkin_hardware sampleDB2 "p1" "HWSet1" (some "u") (some 3) =
        ((200, Body.okStock ("Checked in " ++ toString (3 : Int) ++ " units of " ++ "HWSet1")
            (sampleRes2.available + 3) (sampleRes2.allocatedToProject - 3)),
          { sampleDB2 with resources := updateResource sampleDB2.resources "p1" "HWSet1" (setStock (sampleRes2.available + 3) (sampleRes2.allocatedToProject - 3)) })
    ∧ findResource (checkin_hardware sampleDB2 "p1" "HWSet1" (some "u") (some 3)).2.resources "p1" "HWSet1" =
        some (setStock (sampleRes2.available + 3) (sampleRes2.allocatedToProject - 3) sampleRes2) :=
  ⟨by decide, by decide, by decide, by decide, by decide, by decide,
   (checkin_boundary sampleDB2 "p1" "HWSet1" "u" 8 sampleRes2
      (by decide) (by decide) (by decide)).1 (by decide),
   ((checkin_boundary sampleDB2 "p1" "HWSet1" "u" 3 sampleRes2
      (by decide) (by decide) (by decide)).2 (by decide)).1,
   ((checkin_boundary sampleDB2 "p1" "HWSet1" "u" 3 sampleRes2
      (by decide) (by decide) (by decide)).2 (by decide)).2⟩

/-- C7 counterexample: with an empty store (so project `p1` does not exist),
the detail request returns 403 "Access denied", not 404, because the access
check runs first and fails for a missing project. -/
theorem get_project_missing_is_403_cex :
    findProject (DB.mk [] [] []).projects "p1" = none
    ∧ get_project (DB.mk [] [] []) "p1" (some "alice") ≠ (404, Body.err "Project not found")
    ∧ (get_project (DB.mk [] [] []) "p1" (some "alice")).1 ≠ 404
    ∧ get_project (DB.mk [] [] []) "p1" (some "alice") = (403, Body.err "Access denied") := by
  decide

/-- C7 (amended): for every project id with no stored project record, the
get-project-detail operation returns 403 "Access denied" for every
requesting identity; the 404 branch is unreachable when the project is
absent, because `check_project_access` already fails. -/
theorem get_project_missing_denied (db : DB) (project_id : String) (user_id : Option String)
    (hfind : findProject db.projects project_id = none) :
    get_project db project_id user_id = (403, Body.err "Access denied") := by
  have hacc : check_project_access db project_id user_id = false := by
    unfold check_project_access
    by_cases hf : falsy user_id = true
    · simp [hf]
    · rw [if_neg (by simpa using hf), hfind]
  simp [get_project, hacc]

/-- Witness for the amended C7 at a concrete store that contains users and
an unrelated project but no project `ghost`. -/
theorem get_project_missing_denied_witness :
    findProject sampleDB.projects "ghost" = none
    ∧ get_project sampleDB "ghost" (some "u") = (403, Body.err "Access denied") :=
  ⟨by decide, get_project_missing_denied sampleDB "ghost" (some "u") (by decide)⟩

/-- C8: for a login request with non-empty user id and secret, the response
when the user id does not exist is identical — same status code and same
error body — to the response when the user exists but the secret is wrong,
so the two cases cannot be distinguished by the caller. -/
theorem login_indistinguishable (db1 db2 : DB) (uid pw : String) (user : UserDoc)
    (hu : uid ≠ "") (hp : pw ≠ "")
    (h1 : findUser db1.users uid = none)
    (h2 : findUser db2.users uid = some user) (hwrong : user.password ≠ pw) :
    login db1 (some uid) (some pw) = login db2 (some uid) (some pw)
    ∧ login db1 (some uid) (some pw) = (401, Body.err "Invalid userId/password") := by
  have hfu : falsy (some uid) = false := by simpa [falsy] using hu
  have hfp : falsy (some pw) = false := by simpa [falsy] using hp
  have e1 : login db1 (some uid) (some pw) = (401, Body.err "Invalid userId/password") := by
    simp [login, hfu, hfp, h1]
  have e2 : login db2 (some uid) (some pw) = (401, Body.err "Invalid userId/password") := by
    simp [login, hfu, hfp, h2, hwrong]
  exact ⟨e1.trans e2.symm, e1⟩

/-- Witness for C8: `alice` is unknown in one store and present with a
different secret in the other; both logins yield the identical 401. -/
theorem login_indistinguishable_witness :
    "alice" ≠ "" ∧ "guess" ≠ ""
    ∧ findUser (DB.mk [] [] []).users "alice" = none
    ∧ findUser (DB.mk [⟨"alice", "secret"⟩] [] []).users "alice" = some ⟨"alice", "secret"⟩
    ∧ ("secret" : String) ≠ "guess"
    ∧ login (DB.mk [] [] []) (some "alice") (some "guess") =
        login (DB.mk [⟨"alice", "secret"⟩] [] []) (some "alice") (some "guess")
    ∧ login (DB.mk [] [] []) (some "alice") (some "guess") =
        (401, Body.err "Invalid userId/password") :=
  ⟨by decide, by decide, by decide, by decide, by decide,
   (login_indistinguishable (DB.mk [] [] []) (DB.mk [⟨"alice", "secret"⟩] [] [])
      "alice" "guess" ⟨"alice", "secret"⟩ (by decide) (by decide) (by decide)
      (by decide) (by decide)).1,
   (login_indistinguishable (DB.mk [] [] []) (DB.mk [⟨"alice", "secret"⟩] [] [])
      "alice" "guess" ⟨"alice", "secret"⟩ (by decide) (by decide) (by decide)
      (by decide) (by decide)).2⟩

/-- C9: whenever the `userId` parameter is missing or empty, the three
access-gated reads (project detail, member list, resource list) all answer
403 "Access denied", for every store and every project id — in particular an
anonymous caller can never read a public project. -/
theorem anonymous_reads_denied (db : DB) (project_id : String) (user_id : Option String)
    (hu : user_id = none ∨ user_id = some "") :
    get_project db project_id user_id = (403, Body.err "Access denied")
    ∧ get_project_members db project_id user_id = (403, Body.err "Access denied")
    ∧ get_project_resources db project_id user_id = (403, Body.err "Access denied") := by
  have hf : falsy user_id = true := by
    rcases hu with rfl | rfl <;> rfl
  have hacc : check_project_access db project_id user_id = false := by
    simp [check_project_access, hf]
  exact ⟨by simp [get_project, hacc], by simp [get_project_members, hacc],
    by simp [get_project_resources, hacc]⟩

/-- A sample store holding one public project, for the anonymous-denial
witness. -/
def samplePublicDB : DB :=
  ⟨[⟨"owner", "pw"⟩],
   [⟨"pub", "Open", "", none, "owner", ["owner"], true⟩],
   [⟨"pub", "HWSet1", "Arduino Uno Kit", 15, 0, 15, ""⟩]⟩

/-- Witness for C9 on a public project, with the parameter both missing and
empty. -/
theorem anonymous_reads_denied_witness :
    (findProject samplePublicDB.projects "pub").isSome = true
    ∧ get_project samplePublicDB "pub" none = (403, Body.err "Access denied")
    ∧ get_project_members samplePublicDB "pub" (some "") = (403, Body.err "Access denied")
    ∧ get_project_resources samplePublicDB "pub" none = (403, Body.err "Access denied") :=
  ⟨by decide,
   (anonymous_reads_denied samplePublicDB "pub" none (Or.inl rfl)).1,
   (anonymous_reads_denied samplePublicDB "pub" (some "") (Or.inr rfl)).2.1,
   (anonymous_reads_denied samplePublicDB "pub" none (Or.inl rfl)).2.2⟩

/-- C10: a visibility-change request by the project owner with the
`isPublic` field omitted succeeds with 200 and stores `isPublic = false`:
the missing field is coerced to `false`, silently making the project
private. -/
theorem visibility_omitted_defaults_false (db : DB) (project_id : String) (p0 : Project)
    (hfind : findProject db.projects project_id = some p0)
    (howner : p0.createdBy ≠ "") :
    set_project_visibility db project_id (some p0.createdBy) none =
      ((200, Body.okVis false),
        { db with projects := updateProject db.projects project_id (fun p => { p with isPublic := false }) })
    ∧ findProject (set_project_visibility db project_id (some p0.createdBy) none).2.projects project_id =
        some { p0 with isPublic := false }
    ∧ ({ p0 with isPublic := false } : Project).isPublic = false := by
  have hfalsy : falsy (some p0.createdBy) = false := by simpa [falsy] using howner
  have hmain : set_project_visibility db project_id (some p0.createdBy) none =
      ((200, Body.okVis false),
        { db with projects := updateProject db.projects project_id (fun p => { p with isPublic := false }) }) := by
    simp only [set_project_visibility, hfalsy, Bool.false_eq_true, if_false, hfind,
      Option.getD_some, ne_eq, not_true_eq_false, if_neg (fun h : ¬ p0.createdBy = p0.createdBy => h rfl)]
    rfl
  refine ⟨hmain, ?_, rfl⟩
  rw [hmain]
  have hfind' : List.find? (fun p => p.projectId == project_id) db.projects = some p0 := hfind
  have hpred : (p0.projectId == project_id) = true := by
    simpa using List.find?_some hfind'
  exact findProject_updateProject db.projects project_id
    (fun p => { p with isPublic := false }) p0 hfind (by simpa using hpred)

/-- Witness for C10: the owner of the private sample project omits
`isPublic`; the call succeeds and the stored project is private. -/
theorem visibility_omitted_defaults_false_witness :
    findProject sampleDB.projects "p1" = some ⟨"p1", "P", "", none, "owner", ["owner", "u"], false⟩
    ∧ ("owner" : String) ≠ ""
    ∧ set_project_visibility sampleDB "p1" (some "owner") none =
        ((200, Body.okVis false),
          { sampleDB with projects := updateProject sampleDB.projects "p1" (fun p => { p with isPublic := false }) })
    ∧ findProject (set_project_visibility sampleDB "p1" (some "owner") none).2.projects "p1" =
        some ⟨"p1", "P", "", none, "owner", ["owner", "u"], false⟩ :=
  ⟨by decide, by decide,
   (visibility_omitted_defaults_false sampleDB "p1"
      ⟨"p1", "P", "", none, "owner", ["owner", "u"], false⟩ (by decide) (by decide)).1,
   (visibility_omitted_defaults_false sampleDB "p1"
      ⟨"p1", "P", "", none, "owner", ["owner", "u"], false⟩ (by decide) (by decide)).2.1⟩

lemma ownerInvB_addToSetMember (uid : String) (p : Project)
    (h : ownerInvB p = true) : ownerInvB (addToSetMember uid p) = true := by
  by_cases hc : p.members.contains uid = true
  · simp only [addToSetMember, if_pos hc]
    exact h
  · simp only [ownerInvB, addToSetMember, if_neg hc] at h ⊢
    simp only [List.contains, List.elem_iff] at h ⊢
    simp [h]

lemma ownerInvB_pullMember (mid : String) (p : Project) (hne : mid ≠ p.createdBy)
    (h : ownerInvB p = true) : ownerInvB (pullMember mid p) = true := by
  simp only [ownerInvB, pullMember] at h ⊢
  simp only [List.contains, List.elem_iff, List.mem_filter] at h ⊢
  exact ⟨h, by simp [Ne.symm hne]⟩

lemma ownerInvB_of_all (db : DB) (pid : String) (p0 : Project)
    (hall : ownerInvAll db.projects = true)
    (hfind : findProject db.projects pid = some p0) : ownerInvB p0 = true := by
  rw [ownerInvAll, List.all_eq_true] at hall
  exact hall p0 (List.mem_of_find?_eq_some hfind)

lemma projects_insertResourceTolerant (st : DB × List ResourceSet) (res : ResourceSet) :
    (insertResourceTolerant st res).1.projects = st.1.projects := by
  unfold insertResourceTolerant
  cases findResource st.1.resources res.projectId res.hwsetId <;> rfl

lemma create_preserves_ownerInv (db : DB) (payload : CreatePayload)
    (hall : ownerInvAll db.projects = true) :
    ownerInvAll (create_project db payload).2.projects = true := by
  simp only [create_project]
  by_cases h0 : (falsy payload.projectId || falsy payload.name || falsy payload.createdBy) = true
  · simp only [if_pos h0]; exact hall
  · simp only [if_neg h0]
    cases hu : findUser db.users (payload.createdBy.getD "") with
    | none => simp only [hu]; exact hall
    | some user =>
        simp only [hu]
        cases hp : findProject db.projects (payload.projectId.getD "") with
        | some pr => simp only [hp]; exact hall
        | none =>
            simp only [hp]
            rw [projects_insertResourceTolerant, projects_insertResourceTolerant]
            show ownerInvAll (db.projects ++ [_]) = true
            rw [ownerInvAll, List.all_append]
            rw [ownerInvAll] at hall
            simp [hall, ownerInvB]

lemma join_preserves_ownerInv (db : DB) (pid : String) (u : Option String)
    (hall : ownerInvAll db.projects = true) :
    ownerInvAll (join_project db pid u).2.projects = true := by
  simp only [join_project]
  by_cases hf : falsy u = true
  · simp only [if_pos hf]; exact hall
  · simp only [if_neg hf]
    cases hu : findUser db.users (u.getD "") with
    | none => simp only [hu]; exact hall
    | some user =>
        simp only [hu]
        cases hp : findProject db.projects pid with
        | none => simp only [hp]; exact hall
        | some project =>
            simp only [hp]
            by_cases hpriv : (¬ project.isPublic = true ∧ ¬ project.members.contains (u.getD "") = true)
            · simp only [if_pos hpriv]; exact hall
            · simp only [if_neg hpriv]
              by_cases hmem : ¬ project.members.contains (u.getD "") = true
              · simp only [if_pos hmem]
                exact all_updateProject ownerInvB db.projects pid _ project hp hall
                  (ownerInvB_addToSetMember (u.getD "") project
                    (ownerInvB_of_all db pid project hall hp))
              · simp only [if_neg hmem]; exact hall

lemma invite_preserves_ownerInv (db : DB) (pid : String) (ru iu : Option String)
    (hall : ownerInvAll db.projects = true) :
    ownerInvAll (invite_to_project db pid ru iu).2.projects = true := by
  simp only [invite_to_project]
  by_cases h0 : (falsy ru || falsy iu) = true
  · simp only [if_pos h0]; exact hall
  · simp only [if_neg h0]
    by_cases hacc : check_project_access db pid ru = true
    · simp only [if_neg (not_not_intro hacc)]
      cases hu : findUser db.users (iu.getD "") with
      | none => simp only [hu]; exact hall
      | some user =>
          simp only [hu]
          obtain ⟨-, p0, hp⟩ := access_implies_found db pid ru hacc
          have hupd : ownerInvAll (updateProject db.projects pid (addToSetMember (iu.getD ""))) = true :=
            all_updateProject ownerInvB db.projects pid _ p0 hp hall
              (ownerInvB_addToSetMember (iu.getD "") p0 (ownerInvB_of_all db pid p0 hall hp))
          cases hp2 : findProject db.projects pid with
          | some pr =>
              simp only [hp2]
              by_cases hc : ¬ pr.members.contains (iu.getD "") = true
              · simp only [if_pos hc]; exact hupd
              · simp only [if_neg hc]; exact hupd
          | none => simp only [hp2]; exact hupd
    · simp only [if_pos hacc]; exact hall

lemma remove_preserves_ownerInv (db : DB) (pid mid : String) (ru : Option String)
    (hall : ownerInvAll db.projects = true) :
    ownerInvAll (remove_project_member db pid mid ru).2.projects = true := by
  simp only [remove_project_member]
  by_cases hf : falsy ru = true
  · simp only [if_pos hf]; exact hall
  · simp only [if_neg hf]
    cases hp : findProject db.projects pid with
    | none => simp only [hp]; exact hall
    | some project =>
        simp only [hp]
        by_cases howner : project.createdBy ≠ ru.getD ""
        · simp only [if_pos howner]; exact hall
        · simp only [if_neg howner]
          by_cases hmid : (mid == project.createdBy) = true
          · simp only [if_pos hmid]; exact hall
          · simp only [if_neg hmid]
            have hupd : ownerInvAll (updateProject db.projects pid (pullMember mid)) = true :=
              all_updateProject ownerInvB db.projects pid _ project hp hall
                (ownerInvB_pullMember mid project (by simpa using hmid)
                  (ownerInvB_of_all db pid project hall hp))
            by_cases hc : project.members.contains mid = true
            · simp only [if_pos hc]; exact hupd
            · simp only [if_neg hc]; exact hupd

lemma applyProjOp_preserves_ownerInv (db : DB) (op : ProjOp)
    (hall : ownerInvAll db.projects = true) :
    ownerInvAll (applyProjOp db op).projects = true := by
  cases op with
  | createOp payload => exact create_preserves_ownerInv db payload hall
  | joinOp pid u => exact join_preserves_ownerInv db pid u hall
  | inviteOp pid ru iu => exact invite_preserves_ownerInv db pid ru iu hall
  | removeOp pid mid ru => exact remove_preserves_ownerInv db pid mid ru hall

lemma runProjOps_preserves_ownerInv (db : DB) (ops : List ProjOp)
    (hall : ownerInvAll db.projects = true) :
    ownerInvAll (runProjOps db ops).projects = true := by
  induction ops generalizing db with
  | nil => exact hall
  | cons op rest ih =>
      rw [runProjOps, List.foldl_cons]
      exact ih (applyProjOp db op) (applyProjOp_preserves_ownerInv db op hall)

lemma remove_owner_result (db : DB) (pid : String) (ru : Option String) (p0 : Project)
    (hfind : findProject db.projects pid = some p0) :
    remove_project_member db pid p0.createdBy ru =
      (if falsy ru then ((400, Body.err "requestingUser is required"), db)
       else if p0.createdBy ≠ ru.getD "" then
         ((403, Body.err "Only the project owner may remove members"), db)
       else ((400, Body.err "Cannot remove the project owner"), db)) := by
  simp only [remove_project_member, hfind]
  by_cases hf : falsy ru = true
  · simp [hf]
  · simp only [if_neg hf]
    by_cases ho : p0.createdBy ≠ ru.getD ""
    · simp [ho]
    · simp [ho]

/-- C4: starting from any store in which every project's creator is a
member (as at creation, where `members = [createdBy]`), the creator remains
a member after any sequence of create/invite/join/remove-member requests;
moreover a remove-member request targeting the owner always fails and
leaves the store unchanged — 403 for a non-owner requester, 400 for the
owner personally. -/
theorem owner_always_member (db : DB) (hinv : ownerInvAll db.projects = true) :
    (∀ ops : List ProjOp, ownerInvAll (runProjOps db ops).projects = true)
    ∧ ∀ pid ru p0, findProject db.projects pid = some p0 →
        (remove_project_member db pid p0.createdBy ru).2 = db
        ∧ (remove_project_member db pid p0.createdBy ru).1.1 ≠ 200
        ∧ (falsy ru = false → ru.getD "" ≠ p0.createdBy →
            (remove_project_member db pid p0.createdBy ru).1 =
              (403, Body.err "Only the project owner may remove members"))
        ∧ (p0.createdBy ≠ "" → ru = some p0.createdBy →
            (remove_project_member db pid p0.createdBy ru).1 =
              (400, Body.err "Cannot remove the project owner")) := by
  refine ⟨fun ops => runProjOps_preserves_ownerInv db ops hinv, fun pid ru p0 hfind => ?_⟩
  have h := remove_owner_result db pid ru p0 hfind
  by_cases hf : falsy ru = true
  · rw [h, if_pos hf]
    refine ⟨rfl, by simp, fun hff _ => absurd hf (by simp [hff]), fun hcb hru => ?_⟩
    subst hru
    exact absurd (by simpa [falsy] using hf) hcb
  · rw [h, if_neg hf]
    by_cases ho : p0.createdBy ≠ ru.getD ""
    · rw [if_pos ho]
      refine ⟨rfl, by simp, fun _ _ => rfl, fun hcb hru => ?_⟩
      subst hru
      exact absurd (rfl : p0.createdBy = p0.createdBy)
        (by simp only [Option.getD_some] at ho; exact ho)
    · rw [if_neg ho]
      have ho' : p0.createdBy = ru.getD "" := not_not.mp ho
      exact ⟨rfl, by simp, fun _ hne => absurd ho'.symm hne, fun _ _ => rfl⟩

/-- Witness for C4: the owner survives a concrete sequence of invite, join,
remove and create requests, and both shapes of remove-the-owner fail
concretely without touching the store. -/
theorem owner_always_member_witness :
    ownerInvAll sampleDB.projects = true
    ∧ ownerInvAll (runProjOps sampleDB
        [ProjOp.inviteOp "p1" (some "owner") (some "u"),
         ProjOp.joinOp "p1" (some "u"),
         ProjOp.createOp ⟨some "p2", some "Q", none, none, some "u", some true, none, none⟩,
         ProjOp.removeOp "p1" "u" (some "owner"),
         ProjOp.removeOp "p1" "owner" (some "u")]).projects = true
    ∧ findProject sampleDB.projects "p1" =
        some ⟨"p1", "P", "", none, "owner", ["owner", "u"], false⟩
    ∧ (remove_project_member sampleDB "p1" "owner" (some "u")).2 = sampleDB
    ∧ (remove_project_member sampleDB "p1" "owner" (some "u")).1 =
        (403, Body.err "Only the project owner may remove members")
    ∧ (remove_project_member sampleDB "p1" "owner" (some "owner")).1 =
        (400, Body.err "Cannot remove the project owner") :=
  ⟨by decide,
   (owner_always_member sampleDB (by decide)).1
     [ProjOp.inviteOp "p1" (some "owner") (some "u"),
      ProjOp.joinOp "p1" (some "u"),
      ProjOp.createOp ⟨some "p2", some "Q", none, none, some "u", some true, none, none⟩,
      ProjOp.removeOp "p1" "u" (some "owner"),
      ProjOp.removeOp "p1" "owner" (some "u")],
   by decide,
   ((owner_always_member sampleDB (by decide)).2 "p1" (some "u")
      ⟨"p1", "P", "", none, "owner", ["owner", "u"], false⟩ (by decide)).1,
   ((owner_always_member sampleDB (by decide)).2 "p1" (some "u")
      ⟨"p1", "P", "", none, "owner", ["owner", "u"], false⟩ (by decide)).2.2.1
     (by decide) (by decide),
   ((owner_always_member sampleDB (by decide)).2 "p1" (some "owner")
      ⟨"p1", "P", "", none, "owner", ["owner", "u"], false⟩ (by decide)).2.2.2
     (by decide) rfl⟩

lemma contains_mem_iff (l : List String) (a : String) : l.contains a = true ↔ a ∈ l := by
  simp [List.contains, List.elem_iff]

lemma contains_ne_true (l : List String) (a : String) (h : l.contains a = false) :
    ¬ l.contains a = true := by
  rw [h]
  exact Bool.false_ne_true

lemma join_private_denied (db : DB) (pid u : String) (ud : UserDoc) (p0 : Project)
    (hf : falsy (some u) = false)
    (huser : findUser db.users u = some ud)
    (hfind : findProject db.projects pid = some p0)
    (hpub : p0.isPublic = false) (hmem : p0.members.contains u = false) :
    join_project db pid (some u) = ((403, Body.err "Access denied - project is private"), db) := by
  simp only [join_project, hf, Bool.false_eq_true, if_false, Option.getD_some, huser, hfind]
  rw [if_pos ⟨by rw [hpub]; exact Bool.false_ne_true, contains_ne_true _ _ hmem⟩]

lemma join_member_noop (db : DB) (pid u : String) (ud : UserDoc) (p0 : Project)
    (hf : falsy (some u) = false)
    (huser : findUser db.users u = some ud)
    (hfind : findProject db.projects pid = some p0)
    (hmem : p0.members.contains u = true) :
    join_project db pid (some u) = ((200, Body.okMsg "Already a member of this project"), db) := by
  simp only [join_project, hf, Bool.false_eq_true, if_false, Option.getD_some, huser, hfind]
  rw [if_neg (fun hc => hc.2 hmem), if_neg (not_not_intro hmem)]

lemma join_new_member (db : DB) (pid u : String) (ud : UserDoc) (p0 : Project)
    (hf : falsy (some u) = false)
    (huser : findUser db.users u = some ud)
    (hfind : findProject db.projects pid = some p0)
    (hpub : p0.isPublic = true) (hmem : p0.members.contains u = false) :
    join_project db pid (some u) =
      ((200, Body.okMsg "Successfully joined project"),
        { db with projects := updateProject db.projects pid (addToSetMember u) }) := by
  simp only [join_project, hf, Bool.false_eq_true, if_false, Option.getD_some, huser, hfind]
  rw [if_neg (fun hc => hc.1 hpub), if_pos (contains_ne_true _ _ hmem)]

/-- C6: for a registered identity `u` and an existing project: a join by a
non-member of a private project fails 403 leaving the store unchanged; a
join by an existing member succeeds for any visibility; and whenever `u` has
access, joining twice in a row returns 200 both times and leaves exactly one
occurrence of `u` in the member list. -/
theorem join_denied_and_idempotent (db : DB) (pid u : String) (ud : UserDoc) (p0 : Project)
    (hu : u ≠ "")
    (huser : findUser db.users u = some ud)
    (hfind : findProject db.projects pid = some p0) :
    (p0.isPublic = false → p0.members.contains u = false →
      join_project db pid (some u) = ((403, Body.err "Access denied - project is private"), db))
    ∧ (p0.members.contains u = true →
      join_project db pid (some u) = ((200, Body.okMsg "Already a member of this project"), db))
    ∧ ((p0.isPublic = true ∨ p0.members.contains u = true) →
      p0.members.count u ≤ 1 →
      (join_project db pid (some u)).1.1 = 200
      ∧ (join_project (join_project db pid (some u)).2 pid (some u)).1.1 = 200
      ∧ ∃ p1, findProject (join_project (join_project db pid (some u)).2 pid (some u)).2.projects pid
            = some p1 ∧ p1.members.count u = 1) := by
  have hfalsy : falsy (some u) = false := by simpa [falsy] using hu
  refine ⟨join_private_denied db pid u ud p0 hfalsy huser hfind,
    join_member_noop db pid u ud p0 hfalsy huser hfind, fun hacc hcount => ?_⟩
  by_cases hmem : p0.members.contains u = true
  · have e := join_member_noop db pid u ud p0 hfalsy huser hfind hmem
    have hone : p0.members.count u = 1 := by
      have h1 : 1 ≤ p0.members.count u :=
        List.count_pos_iff.mpr ((contains_mem_iff p0.members u).mp hmem)
      omega
    rw [e]
    exact ⟨rfl, by rw [e], by rw [e]; exact ⟨p0, hfind, hone⟩⟩
  · have hpub : p0.isPublic = true := by
      rcases hacc with hpub | hmem'
      · exact hpub
      · exact absurd hmem' hmem
    have hmem' : p0.members.contains u = false := by
      cases hx : p0.members.contains u with
      | false => rfl
      | true => exact absurd hx hmem
    have hadd : addToSetMember u p0 = { p0 with members := p0.members ++ [u] } := by
      simp only [addToSetMember, if_neg (contains_ne_true _ _ hmem')]
    have e1 := join_new_member db pid u ud p0 hfalsy huser hfind hpub hmem'
    have hfind' : List.find? (fun p => p.projectId == pid) db.projects = some p0 := hfind
    have hpred : (p0.projectId == pid) = true := by
      simpa using List.find?_some hfind'
    have hfind2 : findProject (updateProject db.projects pid (addToSetMember u)) pid
        = some (addToSetMember u p0) :=
      findProject_updateProject db.projects pid (addToSetMember u) p0 hfind
        (by rw [hadd]; simpa using hpred)
    have hmem2 : (addToSetMember u p0).members.contains u = true := by
      rw [hadd]
      exact (contains_mem_iff _ u).mpr (by simp)
    have e2 : join_project { db with projects := updateProject db.projects pid (addToSetMember u) }
        pid (some u) =
        ((200, Body.okMsg "Already a member of this project"),
          { db with projects := updateProject db.projects pid (addToSetMember u) }) :=
      join_member_noop _ pid u ud (addToSetMember u p0) hfalsy huser hfind2 hmem2
    have hcnt : (addToSetMember u p0).members.count u = 1 := by
      rw [hadd]
      show (p0.members ++ [u]).count u = 1
      rw [List.count_append]
      have h0 : p0.members.count u = 0 := by
        rw [List.count_eq_zero]
        intro hin
        exact contains_ne_true _ _ hmem' ((contains_mem_iff p0.members u).mpr hin)
      simp [h0]
    rw [e1]
    exact ⟨rfl, by rw [e2], by rw [e2]; exact ⟨addToSetMember u p0, hfind2, hcnt⟩⟩

/-- A store with a registered non-member `u`, one public and one private
project, for the join witness. -/
def sampleJoinDB : DB :=
  ⟨[⟨"owner", "pw"⟩, ⟨"u", "pw"⟩],
   [⟨"pub", "Open", "", none, "owner", ["owner"], true⟩,
    ⟨"priv", "Closed", "", none, "owner", ["owner"], false⟩],
   []⟩

/-- Witness for C6: `u` is denied on the private project, the owner's join
is a success no-op, and `u` joining the public project twice returns 200
twice and stores exactly one occurrence of `u`. -/
theorem join_denied_and_idempotent_witness :
    ("u" : String) ≠ ""
    ∧ findUser sampleJoinDB.users "u" = some ⟨"u", "pw"⟩
    ∧ findProject sampleJoinDB.projects "priv" =
        some ⟨"priv", "Closed", "", none, "owner", ["owner"], false⟩
    ∧ join_project sampleJoinDB "priv" (some "u") =
        ((403, Body.err "Access denied - project is private"), sampleJoinDB)
    ∧ join_project sampleJoinDB "priv" (some "owner") =
        ((200, Body.okMsg "Already a member of this project"), sampleJoinDB)
    ∧ (join_project sampleJoinDB "pub" (some "u")).1.1 = 200
    ∧ (join_project (join_project sampleJoinDB "pub" (some "u")).2 "pub" (some "u")).1.1 = 200
    ∧ findProject (join_project (join_project sampleJoinDB "pub" (some "u")).2 "pub"
        (some "u")).2.projects "pub" = some ⟨"pub", "Open", "", none, "owner", ["owner", "u"], true⟩
    ∧ List.count "u" (["owner", "u"] : List String) = 1 :=
  ⟨by decide, by decide, by decide,
   (join_denied_and_idempotent sampleJoinDB "priv" "u" ⟨"u", "pw"⟩
      ⟨"priv", "Closed", "", none, "owner", ["owner"], false⟩
      (by decide) (by decide) (by decide)).1 rfl (by decide),
   (join_denied_and_idempotent sampleJoinDB "priv" "owner" ⟨"owner", "pw"⟩
      ⟨"priv", "Closed", "", none, "owner", ["owner"], false⟩
      (by decide) (by decide) (by decide)).2.1 (by decide),
   ((join_denied_and_idempotent sampleJoinDB "pub" "u" ⟨"u", "pw"⟩
      ⟨"pub", "Open", "", none, "owner", ["owner"], true⟩
      (by decide) (by decide) (by decide)).2.2 (Or.inl rfl) (by decide)).1,
   ((join_denied_and_idempotent sampleJoinDB "pub" "u" ⟨"u", "pw"⟩
      ⟨"pub", "Open", "", none, "owner", ["owner"], true⟩
      (by decide) (by decide) (by decide)).2.2 (Or.inl rfl) (by decide)).2.1,
   by decide, by decide⟩

/-- The read phase of `checkout_hardware` — everything before `update_one`:
the userId, access, positivity, existence and availability checks on the
`find_one` snapshot. Returns the snapshot exactly when the route goes on to
write and answer 200. -/
def checkoutRead (db : DB) (project_id hwset_id : String)
    (userId : Option String) (quantity : Option Int) : Option ResourceSet :=
  let q := quantity.getD 1
  if falsy userId then none
  else if ¬ check_project_access db project_id userId then none
  else if q ≤ 0 then none
  else
    match findResource db.resources project_id hwset_id with
    | none => none
    | some resource => if resource.available < q then none else some resource

/-- The write phase of `checkout_hardware`: the `update_one` with `$set` of
the values precomputed from the snapshot, applied unconditionally —
independent of the record's state at write time. -/
def checkoutWrite (db : DB) (project_id hwset_id : String) (snapshot : ResourceSet)
    (q : Int) : DB :=
  { db with resources := updateResource db.resources project_id hwset_id (setStock (snapshot.available - q) (snapshot.allocatedToProject + q)) }

lemma checkout_is_read_then_write (db : DB) (pid hid : String)
    (u : Option String) (q : Option Int) :
    ((checkout_hardware db pid hid u q).1.1 = 200 ↔
      ∃ r0, checkoutRead db pid hid u q = some r0)
    ∧ ∀ r0, checkoutRead db pid hid u q = some r0 →
        (checkout_hardware db pid hid u q).2 = checkoutWrite db pid hid r0 (q.getD 1) := by
  simp only [checkout_hardware, checkoutRead]
  by_cases hf : falsy u = true
  · simp only [if_pos hf]
    refine ⟨⟨fun h => by simp at h, ?_⟩, ?_⟩
    · rintro ⟨r0, hr⟩; cases hr
    · intro r0 hr; cases hr
  · simp only [if_neg hf]
    by_cases hacc : check_project_access db pid u = true
    · simp only [if_neg (not_not_intro hacc)]
      by_cases hq : q.getD 1 ≤ 0
      · simp only [if_pos hq]
        refine ⟨⟨fun h => by simp at h, ?_⟩, ?_⟩
        · rintro ⟨r0, hr⟩; cases hr
        · intro r0 hr; cases hr
      · simp only [if_neg hq]
        cases heq : findResource db.resources pid hid with
        | none =>
            simp only [heq]
            refine ⟨⟨fun h => by simp at h, ?_⟩, ?_⟩
            · rintro ⟨r0, hr⟩; cases hr
            · intro r0 hr; cases hr
        | some resource =>
            simp only [heq]
            by_cases hav : resource.available < q.getD 1
            · simp only [if_pos hav]
              refine ⟨⟨fun h => by simp at h, ?_⟩, ?_⟩
              · rintro ⟨r0, hr⟩; cases hr
              · intro r0 hr; cases hr
            · simp only [if_neg hav]
              refine ⟨?_, ?_⟩
              · constructor
                · intro _
                  exact ⟨resource, rfl⟩
                · intro _
                  trivial
              · intro r0 hr
                injection hr with hr
                subst hr
                rfl
    · simp only [if_pos hacc]
      refine ⟨⟨fun h => by simp at h, ?_⟩, ?_⟩
      · rintro ⟨r0, hr⟩; cases hr
      · intro r0 hr; cases hr

/-- A store with only five units available, for the write-skew scenario. -/
def raceDB : DB :=
  ⟨[⟨"u", "pw"⟩, ⟨"owner", "pw"⟩],
   [⟨"p1", "P", "", none, "owner", ["owner", "u"], false⟩],
   [⟨"p1", "HWSet1", "Arduino Uno Kit", 5, 0, 5, ""⟩]⟩

/-- The snapshot record both concurrent checkouts read from `raceDB`. -/
def raceSnap : ResourceSet := ⟨"p1", "HWSet1", "Arduino Uno Kit", 5, 0, 5, ""⟩

/-- C5: the claim fails on this code. `checkout_hardware` is a separate
`find_one` read followed by an unconditional `update_one` `$set` of values
computed from the snapshot (`checkout_is_read_then_write`), not an atomic
conditional decrement. Two concurrent checkouts of 5 units each against 5
available both pass the read-phase availability check on the same snapshot
and both commit their writes — the write of the second passes no condition —
even though run sequentially the second is rejected with 400: past-capacity
double checkout is possible. -/
theorem checkout_race_not_atomic :
    (checkout_hardware raceDB "p1" "HWSet1" (some "u") (some 5)).1.1 = 200
    ∧ (checkout_hardware raceDB "p1" "HWSet1" (some "u") (some 5)).2 =
        checkoutWrite raceDB "p1" "HWSet1" raceSnap 5
    ∧ checkoutRead raceDB "p1" "HWSet1" (some "u") (some 5) = some raceSnap
    ∧ checkoutRead raceDB "p1" "HWSet1" (some "owner") (some 5) = some raceSnap
    ∧ (checkout_hardware (checkoutWrite raceDB "p1" "HWSet1" raceSnap 5)
        "p1" "HWSet1" (some "owner") (some 5)).1.1 = 400
    ∧ findResource (checkoutWrite (checkoutWrite raceDB "p1" "HWSet1" raceSnap 5)
        "p1" "HWSet1" raceSnap 5).resources "p1" "HWSet1" =
        some ⟨"p1", "HWSet1", "Arduino Uno Kit", 5, 5, 0, ""⟩
    ∧ 5 + 5 > raceSnap.available := by decide
